import Mathlib

/-!
Shallow embedding of the Sudachi FFI layer (`src/SudachiFFI/src/lib.rs`)
from the Manglex repository, together with theorems about its marshaling,
error-handling and configuration behaviour.

Modelling conventions:
* C pointers are modelled as `Option` of their referent; `none` is the
  null pointer.
* C strings crossing the boundary are byte lists (`List Nat`, each < 256),
  holding the bytes before the terminating nul.
* The external analysis engine (sudachi-rs) is an oracle function; the
  embedding of `sudachi_tokenize` records every call made to it, so that
  "the engine is invoked exactly once with these arguments" is provable.
* The filesystem is an oracle as well; the embedding of `sudachi_init`
  records which paths it attempted to open and how many diagnostics it
  emitted to the error stream.
-/

namespace SudachiFFI

/-- UTF-8 continuation byte: `0x80 ≤ b ≤ 0xBF`. -/
def isUtf8Cont (b : Nat) : Bool := 128 ≤ b && b ≤ 191

/-- Validity of a byte sequence as UTF-8, as checked by Rust's
`str::from_utf8` (used by `CStr::to_str`): rejects overlong encodings,
surrogates and values above U+10FFFF. -/
def isValidUtf8 : List Nat → Bool
  | [] => true
  | b0 :: rest =>
    if b0 ≤ 127 then isValidUtf8 rest
    else if 194 ≤ b0 && b0 ≤ 223 then
      match rest with
      | b1 :: rest2 => isUtf8Cont b1 && isValidUtf8 rest2
      | [] => false
    else if b0 == 224 then
      match rest with
      | b1 :: b2 :: rest2 =>
        (160 ≤ b1 && b1 ≤ 191) && isUtf8Cont b2 && isValidUtf8 rest2
      | _ => false
    else if 225 ≤ b0 && b0 ≤ 236 then
      match rest with
      | b1 :: b2 :: rest2 => isUtf8Cont b1 && isUtf8Cont b2 && isValidUtf8 rest2
      | _ => false
    else if b0 == 237 then
      match rest with
      | b1 :: b2 :: rest2 =>
        (128 ≤ b1 && b1 ≤ 159) && isUtf8Cont b2 && isValidUtf8 rest2
      | _ => false
    else if 238 ≤ b0 && b0 ≤ 239 then
      match rest with
      | b1 :: b2 :: rest2 => isUtf8Cont b1 && isUtf8Cont b2 && isValidUtf8 rest2
      | _ => false
    else if b0 == 240 then
      match rest with
      | b1 :: b2 :: b3 :: rest2 =>
        (144 ≤ b1 && b1 ≤ 191) && isUtf8Cont b2 && isUtf8Cont b3 &&
          isValidUtf8 rest2
      | _ => false
    else if 241 ≤ b0 && b0 ≤ 243 then
      match rest with
      | b1 :: b2 :: b3 :: rest2 =>
        isUtf8Cont b1 && isUtf8Cont b2 && isUtf8Cont b3 && isValidUtf8 rest2
      | _ => false
    else if b0 == 244 then
      match rest with
      | b1 :: b2 :: b3 :: rest2 =>
        (128 ≤ b1 && b1 ≤ 143) && isUtf8Cont b2 && isUtf8Cont b3 &&
          isValidUtf8 rest2
      | _ => false
    else false

/-- `CString::new` on a byte string: succeeds (with the same bytes)
iff the bytes contain no nul byte; an embedded `0` makes it fail. -/
def cStringNew (s : List Nat) : Option (List Nat) :=
  if (0 : Nat) ∈ s then none else some s

/-- Rust's `usize as i32` narrowing: truncate to 32 bits and reinterpret
as two's-complement signed. -/
def toI32 (n : Nat) : Int :=
  let m : Nat := n % 2 ^ 32
  if m < 2 ^ 31 then (m : Int) else (m : Int) - 2 ^ 32

/-- The caller-facing three-valued mode enumeration
(`#[repr(C)] enum SudachiTokenMode`). -/
inductive SudachiTokenMode
  | A
  | B
  | C
deriving DecidableEq

/-- The engine's internal mode type (`sudachi::prelude::Mode`),
as far as this layer uses it. -/
inductive Mode
  | A
  | B
  | C
deriving DecidableEq

/-- `impl From<SudachiTokenMode> for Mode` (lib.rs lines 43–51). -/
def modeFrom : SudachiTokenMode → Mode
  | SudachiTokenMode.A => Mode.A
  | SudachiTokenMode.B => Mode.B
  | SudachiTokenMode.C => Mode.C

/-- One morpheme as produced by the engine: the string accessors yield
UTF-8 byte strings, the part-of-speech accessor a list of tag strings,
and `begin`/`end` are `usize` character offsets (modelled as `Nat`). -/
structure Morpheme where
  surface : List Nat
  reading_form : List Nat
  dictionary_form : List Nat
  normalized_form : List Nat
  part_of_speech : List (List Nat)
  begin : Nat
  end_ : Nat
deriving DecidableEq

/-- The flat C record `#[repr(C)] struct SudachiToken`: each string field
is a possibly-null pointer (`none` = null sentinel), offsets are `i32`. -/
structure SudachiToken where
  surface : Option (List Nat)
  reading : Option (List Nat)
  dictionary_form : Option (List Nat)
  normalized_form : Option (List Nat)
  pos : Option (List Nat)
  begin : Int
  end_ : Int
deriving DecidableEq

/-- The external JSON serializer `serde_json::to_string` applied to the
part-of-speech tag list, an oracle (spec §1 treats JSON encoding as an
external serialization utility); `none` models serialization failure. -/
def JsonEnc : Type := List (List Nat) → Option (List Nat)

/-- The engine's `tokenize(text, mode, bool)` operation, an oracle:
given the decoded text bytes, the mode, and the boolean third argument,
it returns the morpheme list or fails (`none` models `Err`). -/
def Engine : Type := List Nat → Mode → Bool → Option (List Morpheme)

/-- The body of the `filter_map` closure in `sudachi_tokenize`
(lib.rs lines 155–195): surface conversion failure drops the morpheme;
each other field degrades independently to the null sentinel. -/
def morphemeToToken (jsonEnc : JsonEnc) (m : Morpheme) : Option SudachiToken :=
  match cStringNew m.surface with
  | none => none
  | some surface =>
    some { surface := some surface
           reading := cStringNew m.reading_form
           dictionary_form := cStringNew m.dictionary_form
           normalized_form := cStringNew m.normalized_form
           pos := (jsonEnc m.part_of_speech).bind cStringNew
           begin := toI32 m.begin
           end_ := toI32 m.end_ }

/-- The token built from a morpheme whose surface conversion succeeds
(total form of `morphemeToToken`, used to state order preservation). -/
def tokenOf (jsonEnc : JsonEnc) (m : Morpheme) : SudachiToken :=
  { surface := some m.surface
    reading := cStringNew m.reading_form
    dictionary_form := cStringNew m.dictionary_form
    normalized_form := cStringNew m.normalized_form
    pos := (jsonEnc m.part_of_speech).bind cStringNew
    begin := toI32 m.begin
    end_ := toI32 m.end_ }

/-- Observable outcome of one `sudachi_tokenize` call:
the returned array (`none` = null return), the value written through
`out_count` (`none` = never written), and the list of engine invocations
with their arguments. -/
structure TokenizeResult where
  result : Option (List SudachiToken)
  outCountWritten : Option Nat
  engineCalls : List (List Nat × Mode × Bool)
deriving DecidableEq

/-- `sudachi_tokenize` (lib.rs lines 126–207). Pointer arguments are
`Option`s; `tokenizer` and `out_count` carry no data beyond nullness
(the engine behind the handle is the `engine` oracle). On the success
path the returned array pointer is non-null even for an empty result
(`Box::leak` of an empty boxed slice yields a dangling non-null
pointer), so success is always `some tokens`. -/
def sudachi_tokenize (engine : Engine) (jsonEnc : JsonEnc)
    (tokenizer : Option Unit) (text : Option (List Nat))
    (mode : SudachiTokenMode) (out_count : Option Unit) : TokenizeResult :=
  match tokenizer, text, out_count with
  | some _, some bytes, some _ =>
    if isValidUtf8 bytes then
      let m := modeFrom mode
      match engine bytes m false with
      | some morphemes =>
        let tokens := morphemes.filterMap (morphemeToToken jsonEnc)
        { result := some tokens
          outCountWritten := some tokens.length
          engineCalls := [(bytes, m, false)] }
      | none =>
        { result := none, outCountWritten := none
          engineCalls := [(bytes, m, false)] }
    else
      { result := none, outCountWritten := none, engineCalls := [] }
  | _, _, _ =>
    { result := none, outCountWritten := none, engineCalls := [] }

/-- One OOV provider plugin declaration, as placed into
`config.oov_provider_plugins` (the JSON object of lib.rs lines 98–104). -/
structure OovProviderPlugin where
  className : String
  oovPOS : List String
  leftId : Int
  rightId : Int
  cost : Int
deriving DecidableEq

/-- The slice of `sudachi::config::Config` this layer manipulates. -/
structure Config where
  oov_provider_plugins : List OovProviderPlugin
deriving DecidableEq

/-- `Config::default()`: no OOV provider plugins declared. -/
def defaultConfig : Config := { oov_provider_plugins := [] }

/-- The single OOV fallback rule `sudachi_init` declares
(lib.rs lines 98–104). -/
def simpleOovPlugin : OovProviderPlugin :=
  { className := "com.worksap.nlp.sudachi.SimpleOovPlugin"
    oovPOS := ["名詞", "普通名詞", "一般", "*", "*", "*"]
    leftId := 0
    rightId := 0
    cost := 30000 }

/-- The configuration `sudachi_init` constructs programmatically before
building the dictionary (lib.rs lines 95–104): the default config with
exactly the one OOV provider plugin installed. -/
def minimalConfig : Config :=
  { defaultConfig with oov_provider_plugins := [simpleOovPlugin] }

/-- Filesystem / engine-construction oracle for `sudachi_init`:
whether `File::open` succeeds on a given path, whether `Mmap::map`
succeeds, and whether
`JapaneseDictionary::from_cfg_storage_with_embedded_chardef` succeeds
for a given config. -/
structure FS where
  openOk : List Nat → Bool
  mmapOk : Bool
  dictBuildOk : Config → Bool

/-- Observable outcome of one `sudachi_init` call: the returned handle
(`none` = null), the paths it attempted to open (in order), the number
of diagnostics printed to the error stream, and the config it passed to
the dictionary builder (`none` if construction was never reached). -/
structure InitResult where
  result : Option Unit
  filesOpened : List (List Nat)
  diagnostics : Nat
  configUsed : Option Config
deriving DecidableEq

/-- `sudachi_init` (lib.rs lines 56–121): null-pointer check, UTF-8
decode of the path, `File::open`, `Mmap::map`, programmatic config
construction, dictionary build; every failure returns the null
sentinel, and the three resource failures each print one diagnostic. -/
def sudachi_init (fs : FS) (dict_path : Option (List Nat)) : InitResult :=
  match dict_path with
  | none =>
    { result := none, filesOpened := [], diagnostics := 0, configUsed := none }
  | some bytes =>
    if isValidUtf8 bytes then
      if fs.openOk bytes then
        if fs.mmapOk then
          let config := minimalConfig
          if fs.dictBuildOk config then
            { result := some (), filesOpened := [bytes], diagnostics := 0
              configUsed := some config }
          else
            { result := none, filesOpened := [bytes], diagnostics := 1
              configUsed := some config }
        else
          { result := none, filesOpened := [bytes], diagnostics := 1
            configUsed := none }
      else
        { result := none, filesOpened := [bytes], diagnostics := 1
          configUsed := none }
    else
      { result := none, filesOpened := [], diagnostics := 0, configUsed := none }

/-! ### Concrete oracles and sample data used to exercise the embedding -/

/-- JSON serializer oracle that always fails (worst-case degradation). -/
def jsonNone : JsonEnc := fun _ => none

/-- Engine oracle that returns an empty morpheme list. -/
def engEmpty : Engine := fun _ _ _ => some []

/-- Filesystem oracle on which every resource acquisition fails. -/
def fs0 : FS :=
  { openOk := fun _ => false, mmapOk := false, dictBuildOk := fun _ => false }

/-- A small well-formed morpheme (surface "a", offsets 0..1). -/
def moA : Morpheme :=
  { surface := [97], reading_form := [98], dictionary_form := [99]
    normalized_form := [100], part_of_speech := [[101]]
    begin := 0, end_ := 1 }

/-- A morpheme whose surface contains an embedded nul byte. -/
def moNul : Morpheme :=
  { surface := [0, 97], reading_form := [98], dictionary_form := [99]
    normalized_form := [100], part_of_speech := [[101]]
    begin := 1, end_ := 2 }

/-- A second well-formed morpheme adjacent to `moA` (offsets 1..3). -/
def moB : Morpheme :=
  { surface := [107], reading_form := [108], dictionary_form := [109]
    normalized_form := [110], part_of_speech := [[111]]
    begin := 1, end_ := 3 }

/-- A morpheme whose end offset does not fit in a signed 32-bit field. -/
def moBig : Morpheme :=
  { surface := [97], reading_form := [98], dictionary_form := [99]
    normalized_form := [100], part_of_speech := [[101]]
    begin := 0, end_ := 2 ^ 31 }

/-- Engine oracle returning one good and one nul-surface morpheme. -/
def engAB : Engine := fun _ _ _ => some [moA, moNul]

/-- Engine oracle returning two adjacent well-formed morphemes. -/
def engW : Engine := fun _ _ _ => some [moA, moB]

/-- Engine oracle returning the overflowing morpheme `moBig`. -/
def engBig : Engine := fun _ _ _ => some [moBig]

/-! ### Helper lemmas about the conversion pipeline -/

lemma morphemeToToken_eq_none (jsonEnc : JsonEnc) (m : Morpheme)
    (h : (0 : Nat) ∈ m.surface) : morphemeToToken jsonEnc m = none := by
  simp [morphemeToToken, cStringNew, h]

lemma morphemeToToken_eq_some (jsonEnc : JsonEnc) (m : Morpheme)
    (h : (0 : Nat) ∉ m.surface) :
    morphemeToToken jsonEnc m = some (tokenOf jsonEnc m) := by
  simp [morphemeToToken, cStringNew, h, tokenOf]

/-- The `filter_map` over morphemes is the filter on nul-free surfaces
followed by the total conversion, in the same order. -/
lemma filterMap_morphemeToToken (jsonEnc : JsonEnc) (ms : List Morpheme) :
    ms.filterMap (morphemeToToken jsonEnc) =
      (ms.filter fun mo => decide ((0 : Nat) ∉ mo.surface)).map
        (tokenOf jsonEnc) := by
  induction ms with
  | nil => rfl
  | cons mo ms ih =>
    by_cases h : (0 : Nat) ∈ mo.surface
    · simp [List.filterMap_cons, List.filter_cons,
        morphemeToToken_eq_none jsonEnc mo h, h, ih]
    · simp [List.filterMap_cons, List.filter_cons,
        morphemeToToken_eq_some jsonEnc mo h, h, ih]

lemma length_filter_add_countP (ms : List Morpheme) :
    (ms.filter fun mo => decide ((0 : Nat) ∉ mo.surface)).length +
      (ms.countP fun mo => decide ((0 : Nat) ∈ mo.surface)) = ms.length := by
  induction ms with
  | nil => rfl
  | cons mo ms ih =>
    by_cases h : (0 : Nat) ∈ mo.surface <;>
      simp [List.filter_cons, List.countP_cons, h] at ih ⊢ <;> omega

/-- Characterization of the success path of `sudachi_tokenize`. -/
lemma tokenize_result_some (engine : Engine) (jsonEnc : JsonEnc)
    (bytes : List Nat) (mode : SudachiTokenMode) (ms : List Morpheme)
    (hv : isValidUtf8 bytes = true)
    (he : engine bytes (modeFrom mode) false = some ms) :
    (sudachi_tokenize engine jsonEnc (some ()) (some bytes) mode
        (some ())).result =
      some ((ms.filter fun mo => decide ((0 : Nat) ∉ mo.surface)).map
        (tokenOf jsonEnc)) := by
  simp [sudachi_tokenize, hv, he, filterMap_morphemeToToken]

lemma toI32_of_lt (n : Nat) (h : n < 2 ^ 31) : toI32 n = (n : Int) := by
  have h32 : n < 2 ^ 32 := lt_trans h (by norm_num)
  simp only [toI32]
  rw [Nat.mod_eq_of_lt h32, if_pos h]

/-! ### Claim theorems -/

/-- C1: whenever the handle pointer, the text pointer, or the
output-count pointer passed to `sudachi_tokenize` is null, the call
returns the null sentinel, does not write through the output-count
pointer, and does not invoke the engine. -/
theorem tokenize_null_args_no_effects (engine : Engine) (jsonEnc : JsonEnc)
    (mode : SudachiTokenMode) (tokenizer : Option Unit)
    (text : Option (List Nat)) (out_count : Option Unit)
    (h : tokenizer = none ∨ text = none ∨ out_count = none) :
    sudachi_tokenize engine jsonEnc tokenizer text mode out_count =
      { result := none, outCountWritten := none, engineCalls := [] } := by
  rcases h with h | h | h <;> subst h
  · cases text <;> cases out_count <;> rfl
  · cases tokenizer <;> cases out_count <;> rfl
  · cases tokenizer <;> cases text <;> rfl

/-- Witness for C1: the null-handle call at concrete arguments. -/
theorem tokenize_null_args_no_effects_witness :
    sudachi_tokenize engEmpty jsonNone none (some [97]) SudachiTokenMode.A
        (some ()) =
      { result := none, outCountWritten := none, engineCalls := [] } :=
  tokenize_null_args_no_effects engEmpty jsonNone SudachiTokenMode.A none
    (some [97]) (some ()) (Or.inl rfl)

/-- C6: the mode mapping sends each of the three caller-facing modes to
the same-named internal mode, is injective, and is surjective, i.e. it
is a total bijection with no failure case. -/
theorem modeFrom_total_bijection :
    modeFrom SudachiTokenMode.A = Mode.A ∧
    modeFrom SudachiTokenMode.B = Mode.B ∧
    modeFrom SudachiTokenMode.C = Mode.C ∧
    (∀ x y : SudachiTokenMode, modeFrom x = modeFrom y → x = y) ∧
    (∀ m : Mode, ∃ x : SudachiTokenMode, modeFrom x = m) := by
  refine ⟨rfl, rfl, rfl, ?_, ?_⟩
  · intro x y h
    cases x <;> cases y <;> simp_all [modeFrom]
  · intro m
    cases m
    · exact ⟨SudachiTokenMode.A, rfl⟩
    · exact ⟨SudachiTokenMode.B, rfl⟩
    · exact ⟨SudachiTokenMode.C, rfl⟩

/-- Witness for C6: injectivity applied at mode B. -/
theorem modeFrom_total_bijection_witness :
    SudachiTokenMode.B = SudachiTokenMode.B :=
  modeFrom_total_bijection.2.2.2.1 SudachiTokenMode.B SudachiTokenMode.B rfl

/-- C8: on every valid call (non-null pointers, UTF-8 text), the engine
tokenize operation is invoked exactly once, with the mapped mode and
with the constant `false` as the boolean third argument, independently
of the engine's outcome and of all caller input. -/
theorem tokenize_engine_called_once (engine : Engine) (jsonEnc : JsonEnc)
    (bytes : List Nat) (mode : SudachiTokenMode)
    (hv : isValidUtf8 bytes = true) :
    (sudachi_tokenize engine jsonEnc (some ()) (some bytes) mode
        (some ())).engineCalls = [(bytes, modeFrom mode, false)] := by
  rcases he : engine bytes (modeFrom mode) false with _ | ms <;>
    simp [sudachi_tokenize, hv, he]

/-- Witness for C8: a concrete valid call records exactly one engine
invocation with third argument `false`. -/
theorem tokenize_engine_called_once_witness :
    (sudachi_tokenize engEmpty jsonNone (some ()) (some [97])
        SudachiTokenMode.C (some ())).engineCalls =
      [([97], modeFrom SudachiTokenMode.C, false)] :=
  tokenize_engine_called_once engEmpty jsonNone [97] SudachiTokenMode.C
    (by decide)

/-- C9: `sudachi_tokenize` writes through the output-count pointer
exactly when it returns a non-null array, and the value written is the
length of the returned array; on every failure path nothing is
written. -/
theorem tokenize_outcount_frame (engine : Engine) (jsonEnc : JsonEnc)
    (tokenizer : Option Unit) (text : Option (List Nat))
    (mode : SudachiTokenMode) (out_count : Option Unit) :
    (sudachi_tokenize engine jsonEnc tokenizer text mode
        out_count).outCountWritten =
      (sudachi_tokenize engine jsonEnc tokenizer text mode
        out_count).result.map List.length := by
  rcases tokenizer with _ | t
  · rfl
  rcases text with _ | bytes
  · rfl
  rcases out_count with _ | o
  · rfl
  by_cases hv : isValidUtf8 bytes
  · rcases he : engine bytes (modeFrom mode) false with _ | ms <;>
      simp [sudachi_tokenize, hv, he]
  · simp [sudachi_tokenize, hv]

/-- C10: a non-null dictionary path whose bytes are not valid UTF-8
makes `sudachi_init` return the null sentinel before opening any file
and without emitting any diagnostic. -/
theorem init_invalid_utf8_rejected (fs : FS) (bytes : List Nat)
    (h : isValidUtf8 bytes = false) :
    sudachi_init fs (some bytes) =
      { result := none, filesOpened := [], diagnostics := 0
        configUsed := none } := by
  simp [sudachi_init, h]

/-- Witness for C10: the single byte 0xFF is not UTF-8 and is rejected
silently with no file activity. -/
theorem init_invalid_utf8_rejected_witness :
    sudachi_init fs0 (some [255]) =
      { result := none, filesOpened := [], diagnostics := 0
        configUsed := none } :=
  init_invalid_utf8_rejected fs0 [255] (by decide)

/-- C5 counterexample: on the empty (non-null, valid UTF-8) path,
`sudachi_init` does NOT reject before touching the filesystem: it
attempts to open the empty path (one file-open attempt is recorded)
and emits a diagnostic, returning null only because the open fails. -/
theorem init_empty_path_counterexample :
    (sudachi_init fs0 (some [])).result = none ∧
    (sudachi_init fs0 (some [])).filesOpened = [[]] ∧
    (sudachi_init fs0 (some [])).diagnostics = 1 :=
  ⟨rfl, rfl, rfl⟩

/-- C5 (amended): a null path is rejected immediately with the null
sentinel, before any file is opened and with no diagnostic; an empty
path is not specially rejected — `sudachi_init` proceeds to attempt to
open the empty path, and when that open fails it returns the null
sentinel with one diagnostic. -/
theorem init_null_path_amended (fs : FS) :
    sudachi_init fs none =
      { result := none, filesOpened := [], diagnostics := 0
        configUsed := none } ∧
    (fs.openOk [] = false →
      (sudachi_init fs (some [])).result = none ∧
      (sudachi_init fs (some [])).filesOpened = [[]] ∧
      (sudachi_init fs (some [])).diagnostics = 1) := by
  refine ⟨rfl, fun h => ?_⟩
  have hv : isValidUtf8 ([] : List Nat) = true := rfl
  refine ⟨?_, ?_, ?_⟩ <;> simp [sudachi_init, hv, h]

/-- Witness for the amended C5: the all-failing filesystem oracle. -/
theorem init_null_path_amended_witness :
    (sudachi_init fs0 (some [])).diagnostics = 1 :=
  ((init_null_path_amended fs0).2 rfl).2.2

/-- C7: the configuration `sudachi_init` builds declares exactly one
OOV fallback rule — the fixed POS tuple with left and right connection
ids 0 and cost 30000 — and every file `sudachi_init` ever attempts to
open is the dictionary path itself (no external config or
character-definition file is read), the dictionary builder receiving
exactly this minimal config whenever it is reached. -/
theorem init_minimal_config (fs : FS) (p : Option (List Nat)) :
    minimalConfig.oov_provider_plugins = [simpleOovPlugin] ∧
    simpleOovPlugin.oovPOS = ["名詞", "普通名詞", "一般", "*", "*", "*"] ∧
    simpleOovPlugin.leftId = 0 ∧
    simpleOovPlugin.rightId = 0 ∧
    simpleOovPlugin.cost = 30000 ∧
    (sudachi_init fs p).filesOpened.all (fun b => decide (p = some b)) =
      true ∧
    (sudachi_init fs p).configUsed.getD minimalConfig = minimalConfig := by
  refine ⟨rfl, rfl, rfl, rfl, rfl, ?_, ?_⟩ <;>
    rcases p with _ | bytes <;>
      simp [sudachi_init] <;> split_ifs <;> simp

/-- C2: on every successful call the count written through the
output-count pointer equals the number of engine morphemes minus those
whose surface contains an embedded nul byte (which are dropped whole,
not substituted), and the returned records are exactly the conversions
of the surviving morphemes in the engine's output order. -/
theorem tokenize_count_and_order (engine : Engine) (jsonEnc : JsonEnc)
    (bytes : List Nat) (mode : SudachiTokenMode) (ms : List Morpheme)
    (hv : isValidUtf8 bytes = true)
    (he : engine bytes (modeFrom mode) false = some ms) :
    (sudachi_tokenize engine jsonEnc (some ()) (some bytes) mode
        (some ())).result =
      some ((ms.filter fun mo => decide ((0 : Nat) ∉ mo.surface)).map
        (tokenOf jsonEnc)) ∧
    (sudachi_tokenize engine jsonEnc (some ()) (some bytes) mode
        (some ())).outCountWritten =
      some (ms.length -
        (ms.countP fun mo => decide ((0 : Nat) ∈ mo.surface))) := by
  refine ⟨tokenize_result_some engine jsonEnc bytes mode ms hv he, ?_⟩
  have hlen := length_filter_add_countP ms
  simp [sudachi_tokenize, hv, he, filterMap_morphemeToToken] at hlen ⊢
  omega

/-- Witness for C2: an engine returning one clean morpheme and one
nul-surface morpheme yields exactly one record and the count 1. -/
theorem tokenize_count_and_order_witness :
    (sudachi_tokenize engAB jsonNone (some ()) (some [97])
        SudachiTokenMode.B (some ())).result =
      some (([moA, moNul].filter
        fun mo => decide ((0 : Nat) ∉ mo.surface)).map (tokenOf jsonNone)) ∧
    (sudachi_tokenize engAB jsonNone (some ()) (some [97])
        SudachiTokenMode.B (some ())).outCountWritten =
      some ([moA, moNul].length -
        ([moA, moNul].countP fun mo => decide ((0 : Nat) ∈ mo.surface))) :=
  tokenize_count_and_order engAB jsonNone [97] SudachiTokenMode.B
    [moA, moNul] (by decide) (by decide)

/-- C3: the conversion drops a morpheme exactly when its surface cannot
become a C string (embedded nul); when a record is emitted, its surface
is the morpheme's surface (never the null sentinel) and each of the
reading, dictionary-form, normalized-form and part-of-speech fields is
independently either its converted value or the null sentinel, exactly
as its own conversion succeeds or fails. -/
theorem morphemeToToken_field_policy (jsonEnc : JsonEnc) (m : Morpheme) :
    (morphemeToToken jsonEnc m = none ↔ (0 : Nat) ∈ m.surface) ∧
    (∀ t : SudachiToken, morphemeToToken jsonEnc m = some t →
      t.surface = some m.surface ∧
      t.surface ≠ none ∧
      t.reading = cStringNew m.reading_form ∧
      t.dictionary_form = cStringNew m.dictionary_form ∧
      t.normalized_form = cStringNew m.normalized_form ∧
      t.pos = (jsonEnc m.part_of_speech).bind cStringNew) := by
  constructor
  · by_cases h : (0 : Nat) ∈ m.surface
    · simp [morphemeToToken_eq_none jsonEnc m h, h]
    · simp [morphemeToToken_eq_some jsonEnc m h, h]
  · intro t ht
    by_cases h : (0 : Nat) ∈ m.surface
    · rw [morphemeToToken_eq_none jsonEnc m h] at ht
      exact absurd ht (by simp)
    · rw [morphemeToToken_eq_some jsonEnc m h] at ht
      have ht' := Option.some.inj ht
      subst ht'
      exact ⟨rfl, by simp [tokenOf], rfl, rfl, rfl, rfl⟩

/-- Witness for C3: the emitted record for `moA` keeps its surface. -/
theorem morphemeToToken_field_policy_witness :
    (tokenOf jsonNone moA).surface = some moA.surface :=
  ((morphemeToToken_field_policy jsonNone moA).2 (tokenOf jsonNone moA)
    (by decide)).1

/-! ### Offset monotonicity (C4) -/

lemma chain_head_le (a : Morpheme) (ms : List Morpheme)
    (hb : ∀ mo ∈ ms, mo.begin ≤ mo.end_)
    (hc : List.Chain (fun x y : Morpheme => x.end_ ≤ y.begin) a ms) :
    ∀ b ∈ ms, a.end_ ≤ b.begin := by
  induction ms generalizing a with
  | nil => intro b hbm; simp at hbm
  | cons c ms ih =>
    rw [List.chain_cons] at hc
    intro b hbm
    rcases List.mem_cons.mp hbm with rfl | hmem
    · exact hc.1
    · have h1 := ih c (fun mo hm => hb mo (List.mem_cons_of_mem _ hm))
        hc.2 b hmem
      have h2 : c.begin ≤ c.end_ := hb c (List.mem_cons_self c ms)
      omega

lemma pairwise_offsets_of_chain' (ms : List Morpheme)
    (hb : ∀ mo ∈ ms, mo.begin ≤ mo.end_)
    (hc : List.Chain' (fun x y : Morpheme => x.end_ ≤ y.begin) ms) :
    List.Pairwise (fun x y : Morpheme => x.end_ ≤ y.begin) ms := by
  induction ms with
  | nil => exact List.Pairwise.nil
  | cons a ms ih =>
    have hca : List.Chain (fun x y : Morpheme => x.end_ ≤ y.begin) a ms := hc
    have htail : List.Chain' (fun x y : Morpheme => x.end_ ≤ y.begin) ms := by
      cases ms with
      | nil => trivial
      | cons c ms' => exact (List.chain_cons.mp hca).2
    exact List.Pairwise.cons
      (chain_head_le a ms (fun mo hm => hb mo (List.mem_cons_of_mem _ hm))
        hca)
      (ih (fun mo hm => hb mo (List.mem_cons_of_mem _ hm)) htail)

/-- C4 counterexample: an engine morpheme with well-formed offsets
(`begin = 0 ≤ end = 2^31`) is marshaled into a record whose narrowed
32-bit `end` is negative, so the record violates `begin ≤ end`: the
narrowing can break the ordering. -/
theorem tokenize_offsets_counterexample :
    moBig.begin ≤ moBig.end_ ∧
    (sudachi_tokenize engBig jsonNone (some ()) (some [97])
        SudachiTokenMode.B (some ())).result =
      some [tokenOf jsonNone moBig] ∧
    (tokenOf jsonNone moBig).end_ < (tokenOf jsonNone moBig).begin := by
  refine ⟨by decide, by decide, by decide⟩

/-- C4 (amended): provided every engine offset fits in a signed 32-bit
field (is below 2^31), the marshaling preserves the engine's offset
invariants: if the engine's morphemes satisfy `begin ≤ end` and
consecutive non-overlap, then every returned record satisfies
`begin ≤ end` and consecutive records have non-decreasing offsets. -/
theorem tokenize_offsets_amended (engine : Engine) (jsonEnc : JsonEnc)
    (bytes : List Nat) (mode : SudachiTokenMode) (ms : List Morpheme)
    (ts : List SudachiToken)
    (hv : isValidUtf8 bytes = true)
    (he : engine bytes (modeFrom mode) false = some ms)
    (hb : ∀ mo ∈ ms, mo.begin ≤ mo.end_)
    (hchain : List.Chain' (fun x y : Morpheme => x.end_ ≤ y.begin) ms)
    (hbound : ∀ mo ∈ ms, mo.end_ < 2 ^ 31)
    (hres : (sudachi_tokenize engine jsonEnc (some ()) (some bytes) mode
        (some ())).result = some ts) :
    (∀ t ∈ ts, t.begin ≤ t.end_) ∧
    List.Chain' (fun x y : SudachiToken => x.end_ ≤ y.begin) ts := by
  rw [tokenize_result_some engine jsonEnc bytes mode ms hv he] at hres
  obtain rfl := (Option.some.inj hres).symm
  constructor
  · intro t ht
    rcases List.mem_map.mp ht with ⟨mo, hmo, rfl⟩
    have hms : mo ∈ ms := List.mem_of_mem_filter hmo
    have h1 := hb mo hms
    have h2 := hbound mo hms
    have hbeg : mo.begin < 2 ^ 31 := lt_of_le_of_lt h1 h2
    simp only [tokenOf, toI32_of_lt _ hbeg, toI32_of_lt _ h2]
    exact_mod_cast h1
  · have hp := pairwise_offsets_of_chain' ms hb hchain
    have hpf : List.Pairwise (fun x y : Morpheme => x.end_ ≤ y.begin)
        (ms.filter fun mo => decide ((0 : Nat) ∉ mo.surface)) :=
      hp.sublist (List.filter_sublist ms)
    refine List.Pairwise.chain' ?_
    rw [List.pairwise_map]
    refine hpf.imp_of_mem ?_
    intro a b ha hb' hab
    have hams : a ∈ ms := List.mem_of_mem_filter ha
    have hbms : b ∈ ms := List.mem_of_mem_filter hb'
    have hbb : b.begin < 2 ^ 31 :=
      lt_of_le_of_lt (hb b hbms) (hbound b hbms)
    simp only [tokenOf, toI32_of_lt _ (hbound a hams), toI32_of_lt _ hbb]
    exact_mod_cast hab

/-- Witness for the amended C4: two adjacent small morphemes yield two
records, and the first record's offsets are ordered. -/
theorem tokenize_offsets_amended_witness :
    (tokenOf jsonNone moA).begin ≤ (tokenOf jsonNone moA).end_ :=
  (tokenize_offsets_amended engW jsonNone [97] SudachiTokenMode.B
      [moA, moB] [tokenOf jsonNone moA, tokenOf jsonNone moB]
      (by decide) (by decide) (by decide)
      (List.Chain.cons (by decide) List.Chain.nil) (by decide)
      (by decide)).1
    (tokenOf jsonNone moA) (by decide)

end SudachiFFI
